import Mathlib

/-!
Verification development for the `master-to-main` branch-migration tool.

The embedding follows `src/utils/github.ts` (the `GitHub` class): the
branch-protection transformation is modelled as a pure function on a
record type mirroring the platform's protection response, and the step
pipeline of `GitHub.run` is modelled as an explicit state-passing
interpreter over an abstract platform client.  Every remote call made
by a step is recorded in a trace of `Action`s so that temporal claims
(dry-run purity, step order, fail-fast) are statements about traces.
-/

namespace MasterToMain

/-! ## Branch-protection data model (octokit response shape) -/

/-- A user object from the platform response; the code projects `.login`. -/
structure UserObj where
  login : String
deriving DecidableEq, Repr

/-- A team object from the platform response; the code projects `.slug`. -/
structure TeamObj where
  slug : String
deriving DecidableEq, Repr

/-- An app object from the platform response; the code projects `.slug`. -/
structure AppObj where
  slug : String
deriving DecidableEq, Repr

/-- The `dismissal_restrictions` block of a fetched protection rule. -/
structure DismissalRestrictions where
  users : List UserObj
  teams : List TeamObj
deriving DecidableEq, Repr

/-- The `required_status_checks` block of a fetched protection rule. -/
structure RequiredStatusChecks where
  strict : Bool
  contexts : List String
deriving DecidableEq, Repr

/-- The `required_pull_request_reviews` block of a fetched protection rule.
`required_approving_review_count` is `Option Nat` because the platform may
omit it; the code applies `|| 1` to a falsy value (absent or zero). -/
structure RequiredPullRequestReviews where
  dismissal_restrictions : Option DismissalRestrictions
  dismiss_stale_reviews : Bool
  require_code_owner_reviews : Bool
  required_approving_review_count : Option Nat
deriving DecidableEq, Repr

/-- The push `restrictions` block of a fetched protection rule. -/
structure Restrictions where
  users : List UserObj
  teams : List TeamObj
  apps : List AppObj
deriving DecidableEq, Repr

/-- A `{ enabled: boolean }` wrapper as returned by the platform. -/
structure EnabledFlag where
  enabled : Bool
deriving DecidableEq, Repr

/-- A fetched branch-protection rule (`ReposGetBranchProtectionResponseData`
plus the preview `required_signatures` field). -/
structure ProtectionData where
  required_status_checks : Option RequiredStatusChecks
  enforce_admins : EnabledFlag
  required_pull_request_reviews : Option RequiredPullRequestReviews
  restrictions : Option Restrictions
  required_signatures : Option EnabledFlag
  required_linear_history : EnabledFlag
  allow_force_pushes : EnabledFlag
  allow_deletions : EnabledFlag
deriving DecidableEq, Repr

/-! ## Creation payload (`newProtection` object) -/

/-- The state of a JavaScript object key: missing from the object, present
with value `undefined`, present with value `null`, or present with a value.
The source builds `dismissal_restrictions` as `undefined` and then `delete`s
it, so the payload distinguishes all four states. -/
inductive JsField (α : Type)
  | absent
  | undef
  | nullv
  | val (a : α)
deriving DecidableEq, Repr

/-- The `dismissal_restrictions` payload block: bare identifiers. -/
structure NewDismissalRestrictions where
  users : List String
  teams : List String
deriving DecidableEq, Repr

/-- The `required_pull_request_reviews` payload block. -/
structure NewPullRequestReviews where
  dismissal_restrictions : JsField NewDismissalRestrictions
  dismiss_stale_reviews : Bool
  require_code_owner_reviews : Bool
  required_approving_review_count : Nat
deriving DecidableEq, Repr

/-- The push `restrictions` payload block: bare identifiers. -/
structure NewRestrictions where
  users : List String
  teams : List String
  apps : List String
deriving DecidableEq, Repr

/-- The creation payload `newProtection` built by `updateBranchProtection`.
`Option` models a nullable payload value (`none` = JSON `null`), except for
`required_signatures` where `none` models JS `undefined` from optional
chaining. -/
structure NewProtection where
  required_status_checks : Option RequiredStatusChecks
  enforce_admins : Option Bool
  required_pull_request_reviews : Option NewPullRequestReviews
  restrictions : Option NewRestrictions
  required_signatures : Option Bool
  required_linear_history : Bool
  allow_force_pushes : Bool
  allow_deletions : Bool
deriving DecidableEq, Repr

/-- JavaScript `x || 1` on the optional approver count: absent and `0` are
falsy and default to `1`. -/
def jsOrOne : Option Nat → Nat
  | some n => if n == 0 then 1 else n
  | none => 1

/-- The `newProtection` object literal (`github.ts` lines 357–398), before
the `delete` statement runs. -/
def mkNewProtection (p : ProtectionData) : NewProtection where
  required_status_checks :=
    p.required_status_checks.map (fun r => ⟨r.strict, r.contexts⟩)
  enforce_admins := if p.enforce_admins.enabled then some true else none
  required_pull_request_reviews :=
    p.required_pull_request_reviews.map (fun r =>
      { dismissal_restrictions :=
          match r.dismissal_restrictions with
          | some d => .val ⟨d.users.map UserObj.login, d.teams.map TeamObj.slug⟩
          | none => .undef
        dismiss_stale_reviews := r.dismiss_stale_reviews
        require_code_owner_reviews := r.require_code_owner_reviews
        required_approving_review_count :=
          jsOrOne r.required_approving_review_count })
  restrictions :=
    p.restrictions.map (fun r =>
      ⟨r.users.map UserObj.login, r.teams.map TeamObj.slug,
        r.apps.map AppObj.slug⟩)
  required_signatures := p.required_signatures.map EnabledFlag.enabled
  required_linear_history := p.required_linear_history.enabled
  allow_force_pushes := p.allow_force_pushes.enabled
  allow_deletions := p.allow_deletions.enabled

/-- The full protection transformation: the object literal followed by
`delete newProtection.required_pull_request_reviews?.dismissal_restrictions`
when `!p.required_pull_request_reviews?.dismissal_restrictions`
(`github.ts` lines 400–404). -/
def transformProtection (p : ProtectionData) : NewProtection :=
  let np := mkNewProtection p
  if (p.required_pull_request_reviews.bind
      (fun r => r.dismissal_restrictions)).isNone then
    { np with
      required_pull_request_reviews :=
        np.required_pull_request_reviews.map (fun r =>
          { r with dismissal_restrictions := .absent }) }
  else np

/-! ## Errors, results, actions -/

/-- A remote-platform error as thrown by the octokit client: an HTTP status
and a message. -/
structure ErrObj where
  status : Nat
  message : String
deriving DecidableEq, Repr

/-- A thrown JavaScript error: either a client error carrying a status, or a
plain `new Error(message)` (whose `status` is `undefined`, so never matches
a numeric comparison). -/
inductive Err
  | http (e : ErrObj)
  | plain (msg : String)
deriving DecidableEq, Repr

/-- Outcome of a promise chain: resolved, rejected with an error, or never
settles (models an infinite re-poll loop via fuel exhaustion). -/
inductive RunRes (α : Type)
  | ok (a : α)
  | err (e : Err)
  | diverge
deriving DecidableEq, Repr

/-- One remote call (or the interactive confirmation prompt) performed by a
step, as recorded in the run trace. -/
inductive Action
  | reposGet
  | getBranch (branch : String)
  | getAuthenticated
  | getPermission (username : String)
  | searchPRs (q : String)
  | prompt (count : Nat) (initial : Bool)
  | getRef (ref : String)
  | createRef (ref sha : String)
  | reposUpdate (default_branch : String)
  | getProtection (branch : String)
  | setProtection (branch : String)
  | deleteProtection (branch : String)
  | pullsList (base : String)
  | pullsUpdate (number : Nat) (base : String)
  | deleteRef (ref : String)
  | searchCode (q : String)
  | createIssue (title : String)
deriving DecidableEq, Repr

/-- The mutating client operations: branch creation, default-branch write,
protection write and delete, pull-request retarget, branch delete, issue
creation.  Everything else is a read or the confirmation prompt. -/
def Action.mutating : Action → Bool
  | .createRef _ _ => true
  | .reposUpdate _ => true
  | .setProtection _ => true
  | .deleteProtection _ => true
  | .pullsUpdate _ _ => true
  | .deleteRef _ => true
  | .createIssue _ => true
  | _ => false

/-! ## The abstract platform client

Each operation takes the client's hidden state `σ` and returns the new
state together with either a value or a thrown `ErrObj`; quantifying over
`σ` and the operation functions quantifies over every possible sequence of
platform responses. -/

/-- The platform operations the `GitHub` class consumes, plus the
interactive confirmation prompt (`prompts`, which does not throw).  The
response value types keep exactly the fields the code reads. -/
structure Client (σ : Type) where
  reposGet : σ → σ × Except ErrObj String
  getBranch : String → σ → σ × Except ErrObj Nat
  getAuthenticated : σ → σ × Except ErrObj String
  getPermission : String → σ → σ × Except ErrObj String
  searchPRs : String → σ → σ × Except ErrObj Nat
  promptConfirm : Bool → σ → σ × Bool
  getRef : String → σ → σ × Except ErrObj String
  createRef : String → String → σ → σ × Except ErrObj Unit
  reposUpdate : String → σ → σ × Except ErrObj Unit
  getBranchProtection : String → σ → σ × Except ErrObj ProtectionData
  updateBranchProtection : String → NewProtection → σ → σ × Except ErrObj Unit
  deleteBranchProtection : String → σ → σ × Except ErrObj Unit
  pullsList : String → σ → σ × Except ErrObj (List Nat)
  pullsUpdate : Nat → String → σ → σ × Except ErrObj Unit
  deleteRef : String → σ → σ × Except ErrObj Unit
  searchCode : String → σ → σ × Except ErrObj (Nat × List String)
  createIssue : String → σ → σ × Except ErrObj Unit

/-- The configuration fields of the `GitHub` class (constructor arguments
and flags). -/
structure Cfg where
  owner : String
  repo : String
  oldBranchName : String
  newBranchName : String
  force : Bool
  execute : Bool
  guardian : Bool
  issues : Bool
deriving DecidableEq, Repr

/-- The mutable instance state threaded through a run: the client's hidden
state and the `defaultBranch` field set by `checkRepoExists`. -/
structure St (σ : Type) where
  cs : σ
  defaultBranch : String
deriving DecidableEq, Repr

/-- Result of running one step (or a chain of steps): the updated state,
the trace of remote calls performed, and the promise outcome. -/
structure Out (σ α : Type) where
  st : St σ
  tr : List Action
  res : RunRes α
deriving DecidableEq, Repr

/-- Result of a client-state-only loop (the pull-request drain loop). -/
structure COut (σ : Type) where
  cs : σ
  tr : List Action
  res : RunRes Unit
deriving DecidableEq, Repr

/-- Promise sequencing (`.then`): run the continuation only when the first
outcome resolved; a rejection or divergence short-circuits. -/
def seq {σ : Type} (o : Out σ Unit) (f : St σ → Out σ Unit) : Out σ Unit :=
  match o.res with
  | .ok _ => let o2 := f o.st; ⟨o2.st, o.tr ++ o2.tr, o2.res⟩
  | .err e => ⟨o.st, o.tr, .err e⟩
  | .diverge => ⟨o.st, o.tr, .diverge⟩

/-- The `.catch` at the end of `run`: a rejection is routed to
`logger.error` and the promise resolves. -/
def catchRes : RunRes Unit → RunRes Unit
  | .err _ => .ok ()
  | r => r

/-! ## The step pipeline (`GitHub` class methods) -/

/-- Search query built in `checkWithUser`. -/
def prSearchQuery (cfg : Cfg) : String :=
  "type:pr+state:open+base:" ++ cfg.oldBranchName ++ "+repo:" ++
    cfg.owner ++ "/" ++ cfg.repo

/-- Search query built in `checkRiffRaffFile`. -/
def riffRaffQuery (cfg : Cfg) : String :=
  "repo:" ++ cfg.owner ++ "/" ++ cfg.repo ++ "+filename:riff-raff.yaml"

/-- Search query built in `checkReferencesToOldBranch`. -/
def referencesQuery (cfg : Cfg) : String :=
  "repo:" ++ cfg.owner ++ "/" ++ cfg.repo ++ "+" ++ cfg.oldBranchName

/-- The error thrown when the operator declines the confirmation prompt
(`throw new Error("Process aborted")`). -/
def userAborted : Err := .plain "Process aborted"

/-- The severity styling applied to the open-pull-request count in the
confirmation message. -/
inductive Style
  | plain
  | bgYellowBlack
  | bgRedWhite
deriving DecidableEq, Repr

/-- The styling chosen for the pull-request-count sentence
(`github.ts` lines 250–256): `if (n > 30) bgYellow.black else if (n > 50)
bgRed.white else plain`. -/
def promptStyle (n : Nat) : Style :=
  if n > 30 then .bgYellowBlack
  else if n > 50 then .bgRedWhite
  else .plain

/-- Numeric severity of a style, for monotonicity statements. -/
def Style.severity : Style → Nat
  | .plain => 0
  | .bgYellowBlack => 1
  | .bgRedWhite => 2

namespace GitHub

variable {σ : Type}

/-- Step `checkRepoExists`: read the repository, store its default branch;
map a 404 to "Repository not found", a 401 to a permissions message, and
anything else to an unknown-error message. -/
def checkRepoExists (cfg : Cfg) (c : Client σ) (s : St σ) : Out σ Unit :=
  let r := c.reposGet s.cs
  match r.2 with
  | .ok db => ⟨⟨r.1, db⟩, [.reposGet], .ok ()⟩
  | .error e =>
    let msg :=
      if e.status == 404 then "Repository not found"
      else if e.status == 401 then
        "You do not have permissions to view this repository"
      else "An unknown error occurred - " ++ e.message
    ⟨⟨r.1, s.defaultBranch⟩, [.reposGet], .err (.plain msg)⟩

/-- Step `checkOldBranchDoesExist`: read the old branch; rethrow any
client error unchanged. -/
def checkOldBranchDoesExist (cfg : Cfg) (c : Client σ) (s : St σ) :
    Out σ Unit :=
  let r := c.getBranch cfg.oldBranchName s.cs
  match r.2 with
  | .ok _ =>
    ⟨⟨r.1, s.defaultBranch⟩, [.getBranch cfg.oldBranchName], .ok ()⟩
  | .error e =>
    ⟨⟨r.1, s.defaultBranch⟩, [.getBranch cfg.oldBranchName], .err (.http e)⟩

/-- Step `checkNewBranchDoesNotExist`: a 404 from the branch read is the
success path; a 200 response means the branch exists and the step fails. -/
def checkNewBranchDoesNotExist (cfg : Cfg) (c : Client σ) (s : St σ) :
    Out σ Unit :=
  let r := c.getBranch cfg.newBranchName s.cs
  let tr := [Action.getBranch cfg.newBranchName]
  match r.2 with
  | .ok status =>
    if status == 200 then
      ⟨⟨r.1, s.defaultBranch⟩, tr,
        .err (.plain ("The " ++ cfg.newBranchName ++ " branch already exists"))⟩
    else ⟨⟨r.1, s.defaultBranch⟩, tr, .ok ()⟩
  | .error e =>
    if e.status == 404 then ⟨⟨r.1, s.defaultBranch⟩, tr, .ok ()⟩
    else ⟨⟨r.1, s.defaultBranch⟩, tr, .err (.http e)⟩

/-- Step `checkAdmin`: resolve the authenticated user, read their
collaborator permission, succeed only on `admin`. -/
def checkAdmin (cfg : Cfg) (c : Client σ) (s : St σ) : Out σ Unit :=
  let r1 := c.getAuthenticated s.cs
  match r1.2 with
  | .error e =>
    ⟨⟨r1.1, s.defaultBranch⟩, [.getAuthenticated], .err (.http e)⟩
  | .ok login =>
    let r2 := c.getPermission login r1.1
    let tr := [Action.getAuthenticated, Action.getPermission login]
    match r2.2 with
    | .error e => ⟨⟨r2.1, s.defaultBranch⟩, tr, .err (.http e)⟩
    | .ok perm =>
      if perm == "admin" then ⟨⟨r2.1, s.defaultBranch⟩, tr, .ok ()⟩
      else
        ⟨⟨r2.1, s.defaultBranch⟩, tr,
          .err (.plain "You must be a repo admin to complete this migration")⟩

/-- Step `checkWithUser`: count the open pull requests based on the old
branch; under `force` only log, otherwise prompt (default yes) and throw
`Process aborted` when declined. -/
def checkWithUser (cfg : Cfg) (c : Client σ) (s : St σ) : Out σ Unit :=
  let r := c.searchPRs (prSearchQuery cfg) s.cs
  match r.2 with
  | .error e =>
    ⟨⟨r.1, s.defaultBranch⟩, [.searchPRs (prSearchQuery cfg)], .err (.http e)⟩
  | .ok n =>
    if cfg.force then
      ⟨⟨r.1, s.defaultBranch⟩, [.searchPRs (prSearchQuery cfg)], .ok ()⟩
    else
      let r2 := c.promptConfirm true r.1
      let tr := [Action.searchPRs (prSearchQuery cfg), Action.prompt n true]
      if r2.2 then ⟨⟨r2.1, s.defaultBranch⟩, tr, .ok ()⟩
      else ⟨⟨r2.1, s.defaultBranch⟩, tr, .err userAborted⟩

/-- Step `createNewBranch`: read the old branch's head ref sha, then create
the new ref — the write only under `execute`. -/
def createNewBranch (cfg : Cfg) (c : Client σ) (s : St σ) : Out σ Unit :=
  let r := c.getRef ("heads/" ++ cfg.oldBranchName) s.cs
  let tr1 := [Action.getRef ("heads/" ++ cfg.oldBranchName)]
  match r.2 with
  | .error e => ⟨⟨r.1, s.defaultBranch⟩, tr1, .err (.http e)⟩
  | .ok sha =>
    if cfg.execute then
      let r2 := c.createRef ("refs/heads/" ++ cfg.newBranchName) sha r.1
      let tr2 := tr1 ++ [Action.createRef ("refs/heads/" ++ cfg.newBranchName) sha]
      match r2.2 with
      | .error e => ⟨⟨r2.1, s.defaultBranch⟩, tr2, .err (.http e)⟩
      | .ok _ => ⟨⟨r2.1, s.defaultBranch⟩, tr2, .ok ()⟩
    else ⟨⟨r.1, s.defaultBranch⟩, tr1, .ok ()⟩

/-- Step `updateDefaultBranch`: skip (with a log line) when the old branch
is not the stored default; otherwise write the new default — the write only
under `execute`. -/
def updateDefaultBranch (cfg : Cfg) (c : Client σ) (s : St σ) : Out σ Unit :=
  if cfg.oldBranchName == s.defaultBranch then
    if cfg.execute then
      let r := c.reposUpdate cfg.newBranchName s.cs
      let tr := [Action.reposUpdate cfg.newBranchName]
      match r.2 with
      | .error e => ⟨⟨r.1, s.defaultBranch⟩, tr, .err (.http e)⟩
      | .ok _ => ⟨⟨r.1, s.defaultBranch⟩, tr, .ok ()⟩
    else ⟨s, [], .ok ()⟩
  else ⟨s, [], .ok ()⟩

/-- The `catch` handler of `updateBranchProtection`: a 404 "Branch not
protected" or the 403 tier-upgrade message is a successful skip; anything
else rethrows. -/
def protCatch (s' : St σ) (tr : List Action) (e : ErrObj) : Out σ Unit :=
  if e.status == 404 && e.message == "Branch not protected" then
    ⟨s', tr, .ok ()⟩
  else if e.status == 403 && e.message ==
      "Upgrade to GitHub Pro or make this repository public to enable this feature." then
    ⟨s', tr, .ok ()⟩
  else ⟨s', tr, .err (.http e)⟩

/-- Step `updateBranchProtection`: read the old branch's protection,
transform it, write it to the new branch and delete it from the old branch
(both writes only under `execute`); the whole body is wrapped by
`protCatch`. -/
def updateBranchProtection (cfg : Cfg) (c : Client σ) (s : St σ) :
    Out σ Unit :=
  let r1 := c.getBranchProtection cfg.oldBranchName s.cs
  let tr1 := [Action.getProtection cfg.oldBranchName]
  match r1.2 with
  | .error e => protCatch ⟨r1.1, s.defaultBranch⟩ tr1 e
  | .ok p =>
    let np := transformProtection p
    if cfg.execute then
      let r2 := c.updateBranchProtection cfg.newBranchName np r1.1
      let tr2 := tr1 ++ [Action.setProtection cfg.newBranchName]
      match r2.2 with
      | .error e => protCatch ⟨r2.1, s.defaultBranch⟩ tr2 e
      | .ok _ =>
        let r3 := c.deleteBranchProtection cfg.oldBranchName r2.1
        let tr3 := tr2 ++ [Action.deleteProtection cfg.oldBranchName]
        match r3.2 with
        | .error e => protCatch ⟨r3.1, s.defaultBranch⟩ tr3 e
        | .ok _ => ⟨⟨r3.1, s.defaultBranch⟩, tr3, .ok ()⟩
    else ⟨⟨r1.1, s.defaultBranch⟩, tr1, .ok ()⟩

/-- Retarget every pull request of one fetched page, in order, stopping at
the first rejected update. -/
def updEach (cfg : Cfg) (c : Client σ) : List Nat → σ → COut σ
  | [], cs => ⟨cs, [], .ok ()⟩
  | n :: rest, cs =>
    let r := c.pullsUpdate n cfg.newBranchName cs
    match r.2 with
    | .error e =>
      ⟨r.1, [.pullsUpdate n cfg.newBranchName], .err (.http e)⟩
    | .ok _ =>
      let o := updEach cfg c rest r.1
      ⟨o.cs, .pullsUpdate n cfg.newBranchName :: o.tr, o.res⟩

/-- The do/while drain loop of `updatePullRequests`: fetch the first page
of open pull requests based on the old branch, retarget each, and repeat
while the fetched page was non-empty.  `fuel = 0` marks divergence. -/
def prLoop (cfg : Cfg) (c : Client σ) : Nat → σ → COut σ
  | 0, cs => ⟨cs, [], .diverge⟩
  | fuel + 1, cs =>
    let r := c.pullsList cfg.oldBranchName cs
    match r.2 with
    | .error e => ⟨r.1, [.pullsList cfg.oldBranchName], .err (.http e)⟩
    | .ok prs =>
      let o := updEach cfg c prs r.1
      let tr := Action.pullsList cfg.oldBranchName :: o.tr
      match o.res with
      | .ok _ =>
        if prs.isEmpty then ⟨o.cs, tr, .ok ()⟩
        else
          let o2 := prLoop cfg c fuel o.cs
          ⟨o2.cs, tr ++ o2.tr, o2.res⟩
      | r' => ⟨o.cs, tr, r'⟩

/-- Step `updatePullRequests`: under dry-run only a log line (pagination
cannot be previewed); under `execute` the drain loop. -/
def updatePullRequests (fuel : Nat) (cfg : Cfg) (c : Client σ) (s : St σ) :
    Out σ Unit :=
  if cfg.execute then
    let o := prLoop cfg c fuel s.cs
    ⟨⟨o.cs, s.defaultBranch⟩, o.tr, o.res⟩
  else ⟨s, [], .ok ()⟩

/-- Step `deleteOldBranch`: delete the old ref — only under `execute`. -/
def deleteOldBranch (cfg : Cfg) (c : Client σ) (s : St σ) : Out σ Unit :=
  if cfg.execute then
    let r := c.deleteRef ("heads/" ++ cfg.oldBranchName) s.cs
    let tr := [Action.deleteRef ("heads/" ++ cfg.oldBranchName)]
    match r.2 with
    | .error e => ⟨⟨r.1, s.defaultBranch⟩, tr, .err (.http e)⟩
    | .ok _ => ⟨⟨r.1, s.defaultBranch⟩, tr, .ok ()⟩
  else ⟨s, [], .ok ()⟩

/-- Step `checkRiffRaffFile` (guardian-only): search for a riff-raff.yaml
file and, when found and issue-opening is enabled, open an advisory issue
(the write only under `execute`). -/
def checkRiffRaffFile (cfg : Cfg) (c : Client σ) (s : St σ) : Out σ Unit :=
  if cfg.guardian then
    let r := c.searchCode (riffRaffQuery cfg) s.cs
    let tr := [Action.searchCode (riffRaffQuery cfg)]
    match r.2 with
    | .error e => ⟨⟨r.1, s.defaultBranch⟩, tr, .err (.http e)⟩
    | .ok res =>
      if res.1 == 0 then ⟨⟨r.1, s.defaultBranch⟩, tr, .ok ()⟩
      else if !cfg.issues then ⟨⟨r.1, s.defaultBranch⟩, tr, .ok ()⟩
      else if cfg.execute then
        let r2 := c.createIssue "Update Riff Raff configuration" r.1
        let tr2 := tr ++ [Action.createIssue "Update Riff Raff configuration"]
        match r2.2 with
        | .error e => ⟨⟨r2.1, s.defaultBranch⟩, tr2, .err (.http e)⟩
        | .ok _ => ⟨⟨r2.1, s.defaultBranch⟩, tr2, .ok ()⟩
      else ⟨⟨r.1, s.defaultBranch⟩, tr, .ok ()⟩
  else ⟨s, [], .ok ()⟩

/-- Step `checkReferencesToOldBranch`: search for files mentioning the old
branch name and, when found and issue-opening is enabled, open an advisory
issue (the write only under `execute`). -/
def checkReferencesToOldBranch (cfg : Cfg) (c : Client σ) (s : St σ) :
    Out σ Unit :=
  let r := c.searchCode (referencesQuery cfg) s.cs
  let tr := [Action.searchCode (referencesQuery cfg)]
  match r.2 with
  | .error e => ⟨⟨r.1, s.defaultBranch⟩, tr, .err (.http e)⟩
  | .ok res =>
    if res.1 == 0 then ⟨⟨r.1, s.defaultBranch⟩, tr, .ok ()⟩
    else if !cfg.issues then ⟨⟨r.1, s.defaultBranch⟩, tr, .ok ()⟩
    else if cfg.execute then
      let title := "Check references to " ++ cfg.oldBranchName
      let r2 := c.createIssue title r.1
      let tr2 := tr ++ [Action.createIssue title]
      match r2.2 with
      | .error e => ⟨⟨r2.1, s.defaultBranch⟩, tr2, .err (.http e)⟩
      | .ok _ => ⟨⟨r2.1, s.defaultBranch⟩, tr2, .ok ()⟩
    else ⟨⟨r.1, s.defaultBranch⟩, tr, .ok ()⟩

/-- Step `openOtherConfigurationIssue`: unless issue-opening is disabled,
open the general build-configuration issue (the write only under
`execute`). -/
def openOtherConfigurationIssue (cfg : Cfg) (c : Client σ) (s : St σ) :
    Out σ Unit :=
  if cfg.issues then
    if cfg.execute then
      let title :=
        "Update " ++ (if cfg.guardian then "other" else "") ++
          " build configuration"
      let r := c.createIssue title s.cs
      let tr := [Action.createIssue title]
      match r.2 with
      | .error e => ⟨⟨r.1, s.defaultBranch⟩, tr, .err (.http e)⟩
      | .ok _ => ⟨⟨r.1, s.defaultBranch⟩, tr, .ok ()⟩
    else ⟨s, [], .ok ()⟩
  else ⟨s, [], .ok ()⟩

/-- The fixed `.then` chain of `GitHub.run`, in source order. -/
def pipeline (fuel : Nat) : List (Cfg → Client σ → St σ → Out σ Unit) :=
  [checkRepoExists, checkOldBranchDoesExist, checkNewBranchDoesNotExist,
   checkAdmin, checkWithUser, createNewBranch, updateDefaultBranch,
   updateBranchProtection, updatePullRequests fuel, deleteOldBranch,
   checkRiffRaffFile, checkReferencesToOldBranch,
   openOtherConfigurationIssue]

/-- Run a list of steps as a promise chain. -/
def runSteps (l : List (Cfg → Client σ → St σ → Out σ Unit)) (cfg : Cfg)
    (c : Client σ) (s : St σ) : Out σ Unit :=
  match l with
  | [] => ⟨s, [], .ok ()⟩
  | step :: rest => seq (step cfg c s) (runSteps rest cfg c)

/-- `GitHub.run`: the full pipeline followed by the trailing
`.catch((err) => this.logger.error(err))`. -/
def run (fuel : Nat) (cfg : Cfg) (c : Client σ) (s : St σ) : Out σ Unit :=
  let o := runSteps (pipeline fuel) cfg c s
  ⟨o.st, o.tr, catchRes o.res⟩

end GitHub

/-! ## Concrete clients and the pull-request state model -/

/-- A client whose every platform call fails with a 404 "nf" error and
whose prompt always accepts; used to exercise error paths concretely. -/
def stubClient (σ : Type) : Client σ where
  reposGet := fun s => (s, .error ⟨404, "nf"⟩)
  getBranch := fun _ s => (s, .error ⟨404, "nf"⟩)
  getAuthenticated := fun s => (s, .error ⟨404, "nf"⟩)
  getPermission := fun _ s => (s, .error ⟨404, "nf"⟩)
  searchPRs := fun _ s => (s, .error ⟨404, "nf"⟩)
  promptConfirm := fun _ s => (s, true)
  getRef := fun _ s => (s, .error ⟨404, "nf"⟩)
  createRef := fun _ _ s => (s, .error ⟨404, "nf"⟩)
  reposUpdate := fun _ s => (s, .error ⟨404, "nf"⟩)
  getBranchProtection := fun _ s => (s, .error ⟨404, "nf"⟩)
  updateBranchProtection := fun _ _ s => (s, .error ⟨404, "nf"⟩)
  deleteBranchProtection := fun _ s => (s, .error ⟨404, "nf"⟩)
  pullsList := fun _ s => (s, .error ⟨404, "nf"⟩)
  pullsUpdate := fun _ _ s => (s, .error ⟨404, "nf"⟩)
  deleteRef := fun _ s => (s, .error ⟨404, "nf"⟩)
  searchCode := fun _ s => (s, .error ⟨404, "nf"⟩)
  createIssue := fun _ s => (s, .error ⟨404, "nf"⟩)

/-- The all-failing client at trivial state. -/
def errClient : Client Unit := stubClient Unit

/-- A client that answers every read as a healthy `master`-defaulted
repository with no branch protection, but whose code search fails with a
500; it drives the pipeline to the follow-up steps and fails there. -/
def happyClient : Client Unit where
  reposGet := fun s => (s, .ok "master")
  getBranch := fun b s =>
    (s, if b == "main" then .error ⟨404, "Not Found"⟩ else .ok 200)
  getAuthenticated := fun s => (s, .ok "me")
  getPermission := fun _ s => (s, .ok "admin")
  searchPRs := fun _ s => (s, .ok 2)
  promptConfirm := fun _ s => (s, true)
  getRef := fun _ s => (s, .ok "abc123")
  createRef := fun _ _ s => (s, .ok ())
  reposUpdate := fun _ s => (s, .ok ())
  getBranchProtection := fun _ s => (s, .error ⟨404, "Branch not protected"⟩)
  updateBranchProtection := fun _ _ s => (s, .ok ())
  deleteBranchProtection := fun _ s => (s, .ok ())
  pullsList := fun _ s => (s, .ok [])
  pullsUpdate := fun _ _ s => (s, .ok ())
  deleteRef := fun _ s => (s, .ok ())
  searchCode := fun _ s => (s, .error ⟨500, "boom"⟩)
  createIssue := fun _ s => (s, .ok ())

/-- The `happyClient` variant whose prompt declines. -/
def declineClient : Client Unit :=
  { happyClient with promptConfirm := fun _ s => (s, false) }

/-- A dry-run configuration with `force` set. -/
def cfgW : Cfg :=
  ⟨"guardian", "repo", "master", "main", true, false, true, true⟩

/-- The execute-mode variant of `cfgW`. -/
def cfgX : Cfg := { cfgW with execute := true }

/-- The `force = false` variant of `cfgW`. -/
def cfgNF : Cfg := { cfgW with force := false }

/-- The variant of `cfgW` whose old branch is not the default branch. -/
def cfgD : Cfg := { cfgW with oldBranchName := "dev" }

/-- An open pull request: its number and current base branch. -/
structure PR where
  number : Nat
  base : String
deriving DecidableEq, Repr

/-- Retargeting one pull request rewrites that pull request's base. -/
def retarget (n : Nat) (b : String) (prs : List PR) : List PR :=
  prs.map (fun p => if p.number == n then { p with base := b } else p)

/-- The first page of open pull requests whose base is `base`: the platform
returns at most `pageSize` results per query. -/
def firstPageNums (base : String) (pageSize : Nat) (prs : List PR) :
    List Nat :=
  ((prs.filter (fun p => p.base == base)).take pageSize).map PR.number

/-- A platform whose pull-request list and update behave like a real
repository: listing filters by base and pages, updating rewrites the base —
so each successful retarget removes that pull request from subsequent
base-branch list queries. -/
def prClient (pageSize : Nat) : Client (List PR) :=
  { stubClient (List PR) with
    pullsList := fun base prs => (prs, .ok (firstPageNums base pageSize prs))
    pullsUpdate := fun n b prs => (retarget n b prs, .ok ()) }

/-- The pull-request numbers retargeted in a trace, in order. -/
def updatesOf (tr : List Action) : List Nat :=
  tr.filterMap (fun a =>
    match a with
    | .pullsUpdate n _ => some n
    | _ => none)

/-- Retargeting a batch of pull requests, expressed as one map. -/
def massRetarget (b : String) (ns : List Nat) (prs : List PR) : List PR :=
  prs.map (fun p => if p.number ∈ ns then { p with base := b } else p)

/-- A concrete pull-request population for witnesses. -/
def prsW : List PR := [⟨1, "master"⟩, ⟨2, "main"⟩, ⟨3, "master"⟩]

/-- A protection rule with a review block but no dismissal allow-list. -/
def protW : ProtectionData where
  required_status_checks := some ⟨true, ["ci"]⟩
  enforce_admins := ⟨true⟩
  required_pull_request_reviews := some
    { dismissal_restrictions := none
      dismiss_stale_reviews := true
      require_code_owner_reviews := false
      required_approving_review_count := none }
  restrictions := none
  required_signatures := none
  required_linear_history := ⟨false⟩
  allow_force_pushes := ⟨false⟩
  allow_deletions := ⟨false⟩

/-! ## Sequencing lemmas -/

theorem seq_err {σ : Type} {o : Out σ Unit} {e : Err} (h : o.res = .err e)
    (f : St σ → Out σ Unit) : seq o f = o := by
  obtain ⟨st, tr, res⟩ := o
  simp only at h
  simp [seq, h]

theorem seq_assoc {σ : Type} (o : Out σ Unit) (f g : St σ → Out σ Unit) :
    seq (seq o f) g = seq o (fun s => seq (f s) g) := by
  obtain ⟨st, tr, res⟩ := o
  cases res with
  | ok a =>
    simp only [seq]
    cases h : (f st).res <;> simp [seq, h, List.append_assoc]
  | err e => simp [seq]
  | diverge => simp [seq]

theorem runSteps_append {σ : Type}
    (l₁ l₂ : List (Cfg → Client σ → St σ → Out σ Unit)) (cfg : Cfg)
    (c : Client σ) (s : St σ) :
    GitHub.runSteps (l₁ ++ l₂) cfg c s =
      seq (GitHub.runSteps l₁ cfg c s) (GitHub.runSteps l₂ cfg c) := by
  induction l₁ generalizing s with
  | nil =>
    simp only [List.nil_append, GitHub.runSteps, seq]
  | cons st rest ih =>
    simp only [List.cons_append, GitHub.runSteps]
    rw [seq_assoc]
    congr 1
    funext s'
    exact ih s'

theorem runSteps_take_err {σ : Type}
    (l : List (Cfg → Client σ → St σ → Out σ Unit)) (cfg : Cfg)
    (c : Client σ) (s : St σ) (i : Nat) (e : Err)
    (h : (GitHub.runSteps (l.take i) cfg c s).res = .err e) :
    GitHub.runSteps l cfg c s = GitHub.runSteps (l.take i) cfg c s := by
  conv_lhs => rw [← List.take_append_drop i l]
  rw [runSteps_append]
  exact seq_err h _

/-! ## Claim theorems -/

/-- C1: for every fetched protection rule whose pull-request-review block
lacks a dismissal allow-list, the creation payload produced by the
transformation has its dismissal-restrictions key absent — not `undefined`,
not `null`, not an empty value. -/
theorem transform_omits_absent_dismissal (p : ProtectionData)
    (r : RequiredPullRequestReviews)
    (hr : p.required_pull_request_reviews = some r)
    (hd : r.dismissal_restrictions = none) :
    ∃ nr : NewPullRequestReviews,
      (transformProtection p).required_pull_request_reviews = some nr ∧
      nr.dismissal_restrictions = JsField.absent := by
  unfold transformProtection mkNewProtection
  simp [hr, hd]

theorem transform_omits_absent_dismissal_witness :
    ∃ nr : NewPullRequestReviews,
      (transformProtection protW).required_pull_request_reviews = some nr ∧
      nr.dismissal_restrictions = JsField.absent :=
  transform_omits_absent_dismissal protW
    { dismissal_restrictions := none
      dismiss_stale_reviews := true
      require_code_owner_reviews := false
      required_approving_review_count := none } rfl rfl

/-- C9: the confirmation message's styling is chosen by testing the count
against 30 before testing it against 50, so the most severe styling is
unreachable: a count above 50 receives the intermediate styling, refuting
the claim that every count above 50 receives the most severe styling (the
severity is still monotone in the count). -/
theorem promptStyle_red_unreachable :
    promptStyle 51 = Style.bgYellowBlack ∧
    (∀ n : Nat, promptStyle n ≠ Style.bgRedWhite) ∧
    (∀ m n : Nat, m ≤ n →
      (promptStyle m).severity ≤ (promptStyle n).severity) := by
  refine ⟨rfl, ?_, ?_⟩
  · intro n
    unfold promptStyle
    by_cases h30 : n > 30
    · simp [h30]
    · have h50 : ¬ n > 50 := by omega
      simp [h30, h50]
  · intro m n hmn
    unfold promptStyle
    by_cases hm : m > 30 <;> by_cases hn : n > 30
    · simp [hm, hn]
    · omega
    · have hm50 : ¬ m > 50 := by omega
      simp [hm, hn, hm50, Style.severity]
    · have hm50 : ¬ m > 50 := by omega
      have hn50 : ¬ n > 50 := by omega
      simp [hm, hn, hm50, hn50, Style.severity]

/-- C10: the promise returned by `run` never rejects: whatever the
configuration, the client's responses and the available fuel, every error
raised inside the pipeline is absorbed by the trailing catch handler
(which routes it to the logger), so the result is never an error. -/
theorem run_never_rejects (σ : Type) (fuel : Nat) (cfg : Cfg)
    (c : Client σ) (s : St σ) (e : Err) :
    (GitHub.run fuel cfg c s).res ≠ RunRes.err e := by
  unfold GitHub.run
  cases h : (GitHub.runSteps (GitHub.pipeline fuel) cfg c s).res <;>
    simp [h, catchRes]

/-- C4: the pipeline is the fixed `.then` chain `checkRepoExists`,
`checkOldBranchDoesExist`, `checkNewBranchDoesNotExist`, `checkAdmin`,
`checkWithUser`, `createNewBranch`, `updateDefaultBranch`,
`updateBranchProtection`, `updatePullRequests`, `deleteOldBranch`, then
the follow-up steps; and once any prefix of it fails, running the whole
chain equals running just that prefix — no subsequent step contributes any
action, state change or result. -/
theorem pipeline_order_and_fail_fast :
    (∀ (σ : Type) (fuel : Nat),
      @GitHub.pipeline σ fuel =
        [GitHub.checkRepoExists, GitHub.checkOldBranchDoesExist,
         GitHub.checkNewBranchDoesNotExist, GitHub.checkAdmin,
         GitHub.checkWithUser, GitHub.createNewBranch,
         GitHub.updateDefaultBranch, GitHub.updateBranchProtection,
         GitHub.updatePullRequests fuel, GitHub.deleteOldBranch,
         GitHub.checkRiffRaffFile, GitHub.checkReferencesToOldBranch,
         GitHub.openOtherConfigurationIssue]) ∧
    (∀ (σ : Type) (fuel : Nat) (cfg : Cfg) (c : Client σ) (s : St σ)
        (i : Nat) (e : Err),
      (GitHub.runSteps ((GitHub.pipeline fuel).take i) cfg c s).res =
          .err e →
      GitHub.runSteps (GitHub.pipeline fuel) cfg c s =
        GitHub.runSteps ((GitHub.pipeline fuel).take i) cfg c s) :=
  ⟨fun _ _ => rfl,
   fun _ fuel cfg c s i e h =>
     runSteps_take_err (GitHub.pipeline fuel) cfg c s i e h⟩

theorem pipeline_order_and_fail_fast_witness :
    (GitHub.runSteps ((GitHub.pipeline 1).take 1) cfgW errClient
        ⟨(), ""⟩).res = .err (.plain "Repository not found") ∧
    GitHub.runSteps (GitHub.pipeline 1) cfgW errClient ⟨(), ""⟩ =
      GitHub.runSteps ((GitHub.pipeline 1).take 1) cfgW errClient
        ⟨(), ""⟩ :=
  ⟨rfl,
   pipeline_order_and_fail_fast.2 Unit 1 cfgW errClient ⟨(), ""⟩ 1
     (.plain "Repository not found") rfl⟩

/-- C8 counterexample: a run in which the riff-raff search (a follow-up
notification step) fails with a 500.  The run still resolves, the failing
step's search is in the trace, but the next follow-up step
(`checkReferencesToOldBranch`) never performs its search — the remaining
follow-up steps do not execute, contrary to the claim. -/
theorem followup_failure_skips_rest :
    (GitHub.run 1 cfgW happyClient ⟨(), ""⟩).res = .ok () ∧
    Action.searchCode (riffRaffQuery cfgW) ∈
      (GitHub.run 1 cfgW happyClient ⟨(), ""⟩).tr ∧
    Action.searchCode (referencesQuery cfgW) ∉
      (GitHub.run 1 cfgW happyClient ⟨(), ""⟩).tr := by
  refine ⟨rfl, ?_, ?_⟩ <;> decide

/-- C8 (amended): a failure in a follow-up notification step is not fatal
to the run as a promise — the trailing catch handler absorbs it and the
run resolves — but the remaining follow-up steps are skipped: the run's
trace is exactly the trace of the chain truncated at the failing step. -/
theorem followup_failure_caught_but_skips (σ : Type) (fuel : Nat)
    (cfg : Cfg) (c : Client σ) (s : St σ) (i : Nat) (e : Err)
    (h : (GitHub.runSteps ((GitHub.pipeline fuel).take i) cfg c s).res =
      .err e) :
    (GitHub.run fuel cfg c s).res = .ok () ∧
    (GitHub.run fuel cfg c s).tr =
      (GitHub.runSteps ((GitHub.pipeline fuel).take i) cfg c s).tr := by
  unfold GitHub.run
  rw [runSteps_take_err (GitHub.pipeline fuel) cfg c s i e h]
  simp [h, catchRes]

theorem followup_failure_caught_but_skips_witness :
    (GitHub.runSteps ((GitHub.pipeline 1).take 11) cfgW happyClient
        ⟨(), ""⟩).res = .err (.http ⟨500, "boom"⟩) ∧
    (GitHub.run 1 cfgW happyClient ⟨(), ""⟩).res = .ok () ∧
    (GitHub.run 1 cfgW happyClient ⟨(), ""⟩).tr =
      (GitHub.runSteps ((GitHub.pipeline 1).take 11) cfgW happyClient
        ⟨(), ""⟩).tr :=
  ⟨rfl,
   followup_failure_caught_but_skips Unit 1 cfgW happyClient ⟨(), ""⟩ 11
     (.http ⟨500, "boom"⟩) rfl⟩

/-- Evaluation of the protection catch handler on the "not protected"
read outcome. -/
theorem protCatch_404 {σ : Type} (s' : St σ) (tr : List Action) :
    GitHub.protCatch s' tr ⟨404, "Branch not protected"⟩ =
      ⟨s', tr, .ok ()⟩ := rfl

/-- Evaluation of the protection catch handler on the tier-upgrade
outcome. -/
theorem protCatch_403 {σ : Type} (s' : St σ) (tr : List Action) :
    GitHub.protCatch s' tr
        ⟨403, "Upgrade to GitHub Pro or make this repository public to enable this feature."⟩ =
      ⟨s', tr, .ok ()⟩ := rfl

/-- C5: in the confirmation step (assuming the count query returned `n`):
under `force` the step proceeds with no prompt at all; otherwise the
operator is prompted with the impacted count and default yes, declining
yields exactly the distinguished `Process aborted` error (never a remote
client failure), accepting proceeds. -/
theorem checkWithUser_gate (σ : Type) (cfg : Cfg) (c : Client σ) (s : St σ)
    (n : Nat) (hs : (c.searchPRs (prSearchQuery cfg) s.cs).2 = .ok n) :
    (cfg.force = true →
      (GitHub.checkWithUser cfg c s).res = .ok () ∧
      ∀ m b, Action.prompt m b ∉ (GitHub.checkWithUser cfg c s).tr) ∧
    (cfg.force = false →
      Action.prompt n true ∈ (GitHub.checkWithUser cfg c s).tr ∧
      ((c.promptConfirm true (c.searchPRs (prSearchQuery cfg) s.cs).1).2 =
          false →
        (GitHub.checkWithUser cfg c s).res = .err userAborted) ∧
      ((c.promptConfirm true (c.searchPRs (prSearchQuery cfg) s.cs).1).2 =
          true →
        (GitHub.checkWithUser cfg c s).res = .ok ())) ∧
    (∀ e : ErrObj, userAborted ≠ Err.http e) := by
  refine ⟨?_, ?_, ?_⟩
  · intro hf
    unfold GitHub.checkWithUser
    simp [hs, hf]
  · intro hf
    unfold GitHub.checkWithUser
    cases hv : (c.promptConfirm true (c.searchPRs (prSearchQuery cfg) s.cs).1).2 <;>
      simp [hs, hf, hv]
  · intro e
    simp [userAborted]

theorem checkWithUser_gate_witness :
    (declineClient.searchPRs (prSearchQuery cfgNF) ()).2 = .ok 2 ∧
    cfgNF.force = false ∧
    Action.prompt 2 true ∈
      (GitHub.checkWithUser cfgNF declineClient ⟨(), ""⟩).tr ∧
    (GitHub.checkWithUser cfgNF declineClient ⟨(), ""⟩).res =
      .err userAborted := by
  have h := checkWithUser_gate Unit cfgNF declineClient ⟨(), ""⟩ 2 rfl
  exact ⟨rfl, rfl, (h.2.1 rfl).1, (h.2.1 rfl).2.1 rfl⟩

/-- C6: the default-branch write happens only when the old branch equals
the stored default branch (and only in execute mode, targeting the new
branch name); when the old branch is not the default the step is a pure
skip; and `checkRepoExists` stores exactly the default branch returned by
the repository read at the start of the run. -/
theorem updateDefaultBranch_only_when_default (σ : Type) (cfg : Cfg)
    (c : Client σ) (s : St σ) :
    (cfg.oldBranchName ≠ s.defaultBranch →
      GitHub.updateDefaultBranch cfg c s = ⟨s, [], .ok ()⟩) ∧
    (∀ b, Action.reposUpdate b ∈ (GitHub.updateDefaultBranch cfg c s).tr →
      cfg.oldBranchName = s.defaultBranch ∧ cfg.execute = true ∧
      b = cfg.newBranchName) ∧
    (∀ db, (c.reposGet s.cs).2 = .ok db →
      (GitHub.checkRepoExists cfg c s).st.defaultBranch = db) := by
  refine ⟨?_, ?_, ?_⟩
  · intro hne
    unfold GitHub.updateDefaultBranch
    simp [hne]
  · intro b hb
    unfold GitHub.updateDefaultBranch at hb
    by_cases heq : cfg.oldBranchName = s.defaultBranch
    · by_cases hx : cfg.execute
      · simp only [heq, hx] at hb
        simp at hb
        cases hr : (c.reposUpdate cfg.newBranchName s.cs).2 <;>
          simp [hr] at hb <;> exact ⟨heq, by simp [hx], hb⟩
      · simp [heq, hx] at hb
    · simp [heq] at hb
  · intro db hdb
    unfold GitHub.checkRepoExists
    simp [hdb]

theorem updateDefaultBranch_only_when_default_witness :
    cfgD.oldBranchName ≠ "master" ∧
    GitHub.updateDefaultBranch cfgD happyClient ⟨(), "master"⟩ =
      ⟨⟨(), "master"⟩, [], .ok ()⟩ ∧
    (happyClient.reposGet ()).2 = .ok "master" ∧
    (GitHub.checkRepoExists cfgD happyClient ⟨(), ""⟩).st.defaultBranch =
      "master" := by
  have h := updateDefaultBranch_only_when_default Unit cfgD happyClient
    ⟨(), "master"⟩
  have h2 := updateDefaultBranch_only_when_default Unit cfgD happyClient
    ⟨(), ""⟩
  exact ⟨by decide, h.1 (by decide), rfl, h2.2.2 "master" rfl⟩

/-- C7: when reading the old branch's protection yields the 404 "Branch
not protected" outcome or the 403 tier-upgrade outcome, the protection
step succeeds as a skip whose trace is exactly the read — no protection
write and no protection delete happen, and the resolved step lets the
chain continue. -/
theorem protection_absent_is_skip (σ : Type) (cfg : Cfg) (c : Client σ)
    (s : St σ) :
    ((c.getBranchProtection cfg.oldBranchName s.cs).2 =
        .error ⟨404, "Branch not protected"⟩ →
      (GitHub.updateBranchProtection cfg c s).res = .ok () ∧
      (GitHub.updateBranchProtection cfg c s).tr =
        [Action.getProtection cfg.oldBranchName]) ∧
    ((c.getBranchProtection cfg.oldBranchName s.cs).2 =
        .error ⟨403, "Upgrade to GitHub Pro or make this repository public to enable this feature."⟩ →
      (GitHub.updateBranchProtection cfg c s).res = .ok () ∧
      (GitHub.updateBranchProtection cfg c s).tr =
        [Action.getProtection cfg.oldBranchName]) := by
  constructor
  · intro h
    unfold GitHub.updateBranchProtection
    simp [h, protCatch_404]
  · intro h
    unfold GitHub.updateBranchProtection
    simp [h, protCatch_403]

theorem protection_absent_is_skip_witness :
    (happyClient.getBranchProtection cfgW.oldBranchName ()).2 =
      .error ⟨404, "Branch not protected"⟩ ∧
    (GitHub.updateBranchProtection cfgW happyClient ⟨(), "master"⟩).res =
      .ok () ∧
    (GitHub.updateBranchProtection cfgW happyClient ⟨(), "master"⟩).tr =
      [Action.getProtection cfgW.oldBranchName] := by
  have h := (protection_absent_is_skip Unit cfgW happyClient
    ⟨(), "master"⟩).1 rfl
  exact ⟨rfl, h.1, h.2⟩

/-! ## Dry-run purity: no step emits a mutating action when
`execute = false` -/

theorem mutFree_checkRepoExists {σ : Type} (cfg : Cfg) (c : Client σ)
    (s : St σ) :
    ∀ a ∈ (GitHub.checkRepoExists cfg c s).tr, a.mutating = false := by
  intro a ha
  simp only [GitHub.checkRepoExists] at ha
  repeat' split at ha
  all_goals try simp_all [Action.mutating]
  all_goals rcases ha with rfl | rfl <;> rfl

theorem mutFree_checkOldBranchDoesExist {σ : Type} (cfg : Cfg)
    (c : Client σ) (s : St σ) :
    ∀ a ∈ (GitHub.checkOldBranchDoesExist cfg c s).tr,
      a.mutating = false := by
  intro a ha
  simp only [GitHub.checkOldBranchDoesExist] at ha
  repeat' split at ha
  all_goals try simp_all [Action.mutating]
  all_goals rcases ha with rfl | rfl <;> rfl

theorem mutFree_checkNewBranchDoesNotExist {σ : Type} (cfg : Cfg)
    (c : Client σ) (s : St σ) :
    ∀ a ∈ (GitHub.checkNewBranchDoesNotExist cfg c s).tr,
      a.mutating = false := by
  intro a ha
  simp only [GitHub.checkNewBranchDoesNotExist] at ha
  repeat' split at ha
  all_goals try simp_all [Action.mutating]
  all_goals rcases ha with rfl | rfl <;> rfl

theorem mutFree_checkAdmin {σ : Type} (cfg : Cfg) (c : Client σ)
    (s : St σ) :
    ∀ a ∈ (GitHub.checkAdmin cfg c s).tr, a.mutating = false := by
  intro a ha
  simp only [GitHub.checkAdmin] at ha
  repeat' split at ha
  all_goals try simp_all [Action.mutating]
  all_goals rcases ha with rfl | rfl <;> rfl

theorem mutFree_checkWithUser {σ : Type} (cfg : Cfg) (c : Client σ)
    (s : St σ) :
    ∀ a ∈ (GitHub.checkWithUser cfg c s).tr, a.mutating = false := by
  intro a ha
  simp only [GitHub.checkWithUser] at ha
  repeat' split at ha
  all_goals try simp_all [Action.mutating]
  all_goals rcases ha with rfl | rfl <;> rfl

theorem mutFree_createNewBranch {σ : Type} (cfg : Cfg) (c : Client σ)
    (s : St σ) (hx : cfg.execute = false) :
    ∀ a ∈ (GitHub.createNewBranch cfg c s).tr, a.mutating = false := by
  intro a ha
  simp only [GitHub.createNewBranch] at ha
  simp only [hx, Bool.false_eq_true, if_false] at ha
  repeat' split at ha
  all_goals try simp_all [Action.mutating]
  all_goals rcases ha with rfl | rfl <;> rfl

theorem mutFree_updateDefaultBranch {σ : Type} (cfg : Cfg) (c : Client σ)
    (s : St σ) (hx : cfg.execute = false) :
    ∀ a ∈ (GitHub.updateDefaultBranch cfg c s).tr, a.mutating = false := by
  intro a ha
  simp only [GitHub.updateDefaultBranch] at ha
  simp only [hx, Bool.false_eq_true, if_false] at ha
  repeat' split at ha
  all_goals try simp_all [Action.mutating]
  all_goals rcases ha with rfl | rfl <;> rfl

theorem mutFree_updateBranchProtection {σ : Type} (cfg : Cfg)
    (c : Client σ) (s : St σ) (hx : cfg.execute = false) :
    ∀ a ∈ (GitHub.updateBranchProtection cfg c s).tr,
      a.mutating = false := by
  intro a ha
  simp only [GitHub.updateBranchProtection, GitHub.protCatch] at ha
  simp only [hx, Bool.false_eq_true, if_false] at ha
  repeat' split at ha
  all_goals try simp_all [Action.mutating]
  all_goals rcases ha with rfl | rfl <;> rfl

theorem mutFree_updatePullRequests {σ : Type} (fuel : Nat) (cfg : Cfg)
    (c : Client σ) (s : St σ) (hx : cfg.execute = false) :
    ∀ a ∈ (GitHub.updatePullRequests fuel cfg c s).tr,
      a.mutating = false := by
  intro a ha
  simp only [GitHub.updatePullRequests] at ha
  simp [hx] at ha

theorem mutFree_deleteOldBranch {σ : Type} (cfg : Cfg) (c : Client σ)
    (s : St σ) (hx : cfg.execute = false) :
    ∀ a ∈ (GitHub.deleteOldBranch cfg c s).tr, a.mutating = false := by
  intro a ha
  simp only [GitHub.deleteOldBranch] at ha
  simp [hx] at ha

theorem mutFree_checkRiffRaffFile {σ : Type} (cfg : Cfg) (c : Client σ)
    (s : St σ) (hx : cfg.execute = false) :
    ∀ a ∈ (GitHub.checkRiffRaffFile cfg c s).tr, a.mutating = false := by
  intro a ha
  simp only [GitHub.checkRiffRaffFile] at ha
  simp only [hx, Bool.false_eq_true, if_false] at ha
  repeat' split at ha
  all_goals try simp_all [Action.mutating]
  all_goals rcases ha with rfl | rfl <;> rfl

theorem mutFree_checkReferencesToOldBranch {σ : Type} (cfg : Cfg)
    (c : Client σ) (s : St σ) (hx : cfg.execute = false) :
    ∀ a ∈ (GitHub.checkReferencesToOldBranch cfg c s).tr,
      a.mutating = false := by
  intro a ha
  simp only [GitHub.checkReferencesToOldBranch] at ha
  simp only [hx, Bool.false_eq_true, if_false] at ha
  repeat' split at ha
  all_goals try simp_all [Action.mutating]
  all_goals rcases ha with rfl | rfl <;> rfl

theorem mutFree_openOtherConfigurationIssue {σ : Type} (cfg : Cfg)
    (c : Client σ) (s : St σ) (hx : cfg.execute = false) :
    ∀ a ∈ (GitHub.openOtherConfigurationIssue cfg c s).tr,
      a.mutating = false := by
  intro a ha
  simp only [GitHub.openOtherConfigurationIssue] at ha
  simp only [hx, Bool.false_eq_true, if_false] at ha
  repeat' split at ha
  all_goals try simp_all [Action.mutating]
  all_goals rcases ha with rfl | rfl <;> rfl

theorem pipeline_mutFree (σ : Type) (fuel : Nat) (cfg : Cfg)
    (c : Client σ) (hx : cfg.execute = false) :
    ∀ step ∈ @GitHub.pipeline σ fuel, ∀ s : St σ,
      ∀ a ∈ (step cfg c s).tr, a.mutating = false := by
  intro step hstep
  simp only [GitHub.pipeline, List.mem_cons, List.not_mem_nil, or_false]
    at hstep
  rcases hstep with rfl | rfl | rfl | rfl | rfl | rfl | rfl | rfl | rfl |
    rfl | rfl | rfl | rfl
  · exact fun s => mutFree_checkRepoExists cfg c s
  · exact fun s => mutFree_checkOldBranchDoesExist cfg c s
  · exact fun s => mutFree_checkNewBranchDoesNotExist cfg c s
  · exact fun s => mutFree_checkAdmin cfg c s
  · exact fun s => mutFree_checkWithUser cfg c s
  · exact fun s => mutFree_createNewBranch cfg c s hx
  · exact fun s => mutFree_updateDefaultBranch cfg c s hx
  · exact fun s => mutFree_updateBranchProtection cfg c s hx
  · exact fun s => mutFree_updatePullRequests fuel cfg c s hx
  · exact fun s => mutFree_deleteOldBranch cfg c s hx
  · exact fun s => mutFree_checkRiffRaffFile cfg c s hx
  · exact fun s => mutFree_checkReferencesToOldBranch cfg c s hx
  · exact fun s => mutFree_openOtherConfigurationIssue cfg c s hx

theorem runSteps_mutFree {σ : Type}
    (l : List (Cfg → Client σ → St σ → Out σ Unit)) (cfg : Cfg)
    (c : Client σ)
    (hl : ∀ step ∈ l, ∀ s : St σ, ∀ a ∈ (step cfg c s).tr,
      a.mutating = false) :
    ∀ s : St σ, ∀ a ∈ (GitHub.runSteps l cfg c s).tr,
      a.mutating = false := by
  induction l with
  | nil => intro s a ha; simp [GitHub.runSteps] at ha
  | cons st rest ih =>
    intro s a ha
    unfold GitHub.runSteps seq at ha
    split at ha
    · simp only at ha
      rcases List.mem_append.1 ha with h1 | h2
      · exact hl st (by simp) s a h1
      · exact ih (fun st' hst' => hl st' (by simp [hst'])) _ a h2
    · exact hl st (by simp) s a (by simpa using ha)
    · exact hl st (by simp) s a (by simpa using ha)

/-- C2: in a dry run (`execute = false`), whatever the configuration and
whatever the client responds, no mutating operation — branch creation,
default-branch write, protection write or delete, pull-request retarget,
branch delete, issue creation — ever appears in the run's trace; the
trace holds only read operations and the confirmation prompt. -/
theorem dry_run_no_mutations (σ : Type) (fuel : Nat) (cfg : Cfg)
    (c : Client σ) (s : St σ) (hx : cfg.execute = false) :
    ∀ a ∈ (GitHub.run fuel cfg c s).tr, a.mutating = false := by
  intro a ha
  unfold GitHub.run at ha
  simp only at ha
  exact runSteps_mutFree (GitHub.pipeline fuel) cfg c
    (pipeline_mutFree σ fuel cfg c hx) s a ha

theorem dry_run_no_mutations_witness :
    cfgW.execute = false ∧
    ∀ a ∈ (GitHub.run 1 cfgW happyClient ⟨(), ""⟩).tr,
      a.mutating = false :=
  ⟨rfl, dry_run_no_mutations Unit 1 cfgW happyClient ⟨(), ""⟩ rfl⟩

/-! ## The retarget drain loop on the concrete pull-request model -/

theorem prClient_pullsUpdate (ps : Nat) :
    (prClient ps).pullsUpdate =
      fun n b prs => (retarget n b prs, .ok ()) := rfl

theorem prClient_pullsList (ps : Nat) :
    (prClient ps).pullsList =
      fun base prs => (prs, .ok (firstPageNums base ps prs)) := rfl

theorem updEach_prClient (cfg : Cfg) (ps : Nat) (ns : List Nat)
    (prs : List PR) :
    GitHub.updEach cfg (prClient ps) ns prs =
      ⟨ns.foldl (fun acc n => retarget n cfg.newBranchName acc) prs,
       ns.map (fun n => Action.pullsUpdate n cfg.newBranchName),
       .ok ()⟩ := by
  induction ns generalizing prs with
  | nil => rfl
  | cons n rest ih =>
    simp [GitHub.updEach, prClient_pullsUpdate, ih]

theorem foldl_retarget_eq_mass (b : String) (ns : List Nat)
    (prs : List PR) :
    ns.foldl (fun acc n => retarget n b acc) prs = massRetarget b ns prs := by
  induction ns generalizing prs with
  | nil => simp [massRetarget]
  | cons n rest ih =>
    simp only [List.foldl_cons]
    rw [ih]
    unfold massRetarget retarget
    rw [List.map_map]
    congr 1
    funext p
    by_cases hn : p.number = n
    · simp [Function.comp, hn, List.mem_cons]
    · simp [Function.comp, hn, List.mem_cons]

theorem massRetarget_map_number (b : String) (ns : List Nat)
    (prs : List PR) :
    (massRetarget b ns prs).map PR.number = prs.map PR.number := by
  induction prs with
  | nil => rfl
  | cons p rest ih =>
    simp only [massRetarget, List.map_cons] at *
    rw [ih]
    congr 1
    split <;> rfl

theorem filter_massRetarget (b old : String) (hb : (b == old) = false)
    (ns : List Nat) (prs : List PR) :
    (massRetarget b ns prs).filter (fun p => p.base == old) =
      prs.filter (fun p => !(decide (p.number ∈ ns)) && p.base == old) := by
  induction prs with
  | nil => rfl
  | cons p rest ih =>
    simp only [massRetarget, List.map_cons, List.filter_cons] at *
    by_cases hn : p.number ∈ ns
    · simp [hn, hb, ih]
    · by_cases hpb : (p.base == old) = true
      · simp [hn, hpb, ih]
      · simp [hn, hpb, ih]

theorem filter_not_mem_take (k : Nat) (M : List PR)
    (hnd : (M.map PR.number).Nodup) :
    M.filter (fun p => !(decide (p.number ∈ (M.take k).map PR.number))) =
      M.drop k := by
  set ns := (M.take k).map PR.number with hns
  have h1 : (M.take k).filter
      (fun p => !(decide (p.number ∈ ns))) = [] := by
    rw [List.filter_eq_nil_iff]
    intro p hp
    have h := List.mem_map_of_mem PR.number hp
    rw [← hns] at h
    simp [h]
  have h2 : (M.drop k).filter
      (fun p => !(decide (p.number ∈ ns))) = M.drop k := by
    rw [List.filter_eq_self]
    intro p hp
    have hsplit : (M.map PR.number) =
        ns ++ (M.drop k).map PR.number := by
      rw [hns, ← List.map_append, List.take_append_drop]
    rw [hsplit, List.nodup_append] at hnd
    simp only [Bool.not_eq_true', decide_eq_false_iff_not]
    intro hmem
    exact hnd.2.2 hmem (List.mem_map_of_mem PR.number hp)
  conv_lhs => rw [← List.take_append_drop k M]
  rw [List.filter_append, h1, h2, List.nil_append]

theorem nodup_filter_numbers (q : PR → Bool) (prs : List PR)
    (h : (prs.map PR.number).Nodup) :
    ((prs.filter q).map PR.number).Nodup :=
  h.sublist (List.Sublist.map PR.number (List.filter_sublist prs))

theorem updatesOf_updActions (b : String) (ns : List Nat) :
    updatesOf (ns.map (fun n => Action.pullsUpdate n b)) = ns := by
  induction ns with
  | nil => rfl
  | cons n rest ih => simp [updatesOf, List.filterMap_cons] at *; exact ih

theorem updatesOf_append (l₁ l₂ : List Action) :
    updatesOf (l₁ ++ l₂) = updatesOf l₁ ++ updatesOf l₂ := by
  simp [updatesOf, List.filterMap_append]

theorem prLoop_prClient_spec (cfg : Cfg) (ps : Nat) (hps : 0 < ps)
    (hbne : (cfg.newBranchName == cfg.oldBranchName) = false) :
    ∀ fuel prs, (prs.map PR.number).Nodup →
      (prs.filter (fun p => p.base == cfg.oldBranchName)).length < fuel →
      (GitHub.prLoop cfg (prClient ps) fuel prs).res = .ok () ∧
      updatesOf (GitHub.prLoop cfg (prClient ps) fuel prs).tr =
        (prs.filter (fun p => p.base == cfg.oldBranchName)).map
          PR.number := by
  intro fuel
  induction fuel with
  | zero => intro prs _ h; omega
  | succ f ih =>
    intro prs hnd hlen
    have hlist : (prClient ps).pullsList cfg.oldBranchName prs =
        (prs, .ok (firstPageNums cfg.oldBranchName ps prs)) := rfl
    set M := prs.filter (fun p => p.base == cfg.oldBranchName) with hM
    set ns := firstPageNums cfg.oldBranchName ps prs with hns
    have hns2 : ns = (M.take ps).map PR.number := by
      rw [hns, firstPageNums, hM]
    by_cases hMnil : M = []
    · have hnsnil : ns = [] := by simp [hns2, hMnil]
      have hred : GitHub.prLoop cfg (prClient ps) (f + 1) prs =
          ⟨prs, [Action.pullsList cfg.oldBranchName], .ok ()⟩ := by
        simp [GitHub.prLoop, hlist, ← hns, hnsnil, updEach_prClient]
      rw [hred]
      simp [updatesOf, hMnil]
    · have hnsne : ns.isEmpty = false := by
        rw [List.isEmpty_eq_false]
        rw [hns2]
        intro hcon
        rcases List.map_eq_nil_iff.1 hcon with h
        rcases List.take_eq_nil_iff.1 h with h0 | h0
        · omega
        · exact hMnil h0
      have hstep : GitHub.prLoop cfg (prClient ps) (f + 1) prs =
          ⟨(GitHub.prLoop cfg (prClient ps) f
              (massRetarget cfg.newBranchName ns prs)).cs,
           (Action.pullsList cfg.oldBranchName ::
             ns.map (fun n => Action.pullsUpdate n cfg.newBranchName)) ++
             (GitHub.prLoop cfg (prClient ps) f
               (massRetarget cfg.newBranchName ns prs)).tr,
           (GitHub.prLoop cfg (prClient ps) f
             (massRetarget cfg.newBranchName ns prs)).res⟩ := by
        simp only [GitHub.prLoop, hlist, updEach_prClient,
          foldl_retarget_eq_mass, ← hns]
        simp [hnsne]
      have hM1 : (massRetarget cfg.newBranchName ns prs).filter
          (fun p => p.base == cfg.oldBranchName) = M.drop ps := by
        rw [filter_massRetarget cfg.newBranchName cfg.oldBranchName hbne,
          ← List.filter_filter, ← hM, hns2]
        exact filter_not_mem_take ps M (nodup_filter_numbers _ prs hnd)
      have hnd1 : ((massRetarget cfg.newBranchName ns prs).map
          PR.number).Nodup := by
        rw [massRetarget_map_number]; exact hnd
      have hlen1 : ((massRetarget cfg.newBranchName ns prs).filter
          (fun p => p.base == cfg.oldBranchName)).length < f := by
        rw [hM1]
        have hMl : 0 < M.length := List.length_pos.2 hMnil
        have hlt : M.length < f + 1 := hlen
        simp only [List.length_drop]
        omega
      obtain ⟨hres, hupd⟩ := ih (massRetarget cfg.newBranchName ns prs)
        hnd1 hlen1
      rw [hstep]
      refine ⟨hres, ?_⟩
      have hcons : updatesOf (Action.pullsList cfg.oldBranchName ::
          ns.map (fun n => Action.pullsUpdate n cfg.newBranchName)) =
          ns := by
        have h := updatesOf_updActions cfg.newBranchName ns
        simp only [updatesOf, List.filterMap_cons] at h ⊢
        exact h
      simp only [updatesOf_append, hupd, hM1, hcons]
      rw [hns2, ← List.map_append, List.take_append_drop]

/-- C3: on a platform where each successful retarget removes that pull
request from subsequent base-branch list queries (the `prClient` model),
the retarget step's fetch-first-page/retarget/repeat loop terminates with
success (given fuel exceeding the number of matching pull requests), and
every open pull request whose base equalled the old branch name at loop
entry is retargeted exactly once. -/
theorem retarget_loop_exactly_once (cfg : Cfg) (ps fuel : Nat)
    (db : String) (prs : List PR)
    (hx : cfg.execute = true)
    (hps : 0 < ps)
    (hne : cfg.newBranchName ≠ cfg.oldBranchName)
    (hnd : (prs.map PR.number).Nodup)
    (hfuel : (prs.filter (fun p =>
      p.base == cfg.oldBranchName)).length < fuel) :
    (GitHub.updatePullRequests fuel cfg (prClient ps) ⟨prs, db⟩).res =
      .ok () ∧
    ∀ p ∈ prs, p.base = cfg.oldBranchName →
      (updatesOf (GitHub.updatePullRequests fuel cfg (prClient ps)
        ⟨prs, db⟩).tr).count p.number = 1 := by
  have hbne : (cfg.newBranchName == cfg.oldBranchName) = false := by
    simp [hne]
  obtain ⟨hres, hupd⟩ :=
    prLoop_prClient_spec cfg ps hps hbne fuel prs hnd hfuel
  have hstep : GitHub.updatePullRequests fuel cfg (prClient ps)
      ⟨prs, db⟩ =
      ⟨⟨(GitHub.prLoop cfg (prClient ps) fuel prs).cs, db⟩,
       (GitHub.prLoop cfg (prClient ps) fuel prs).tr,
       (GitHub.prLoop cfg (prClient ps) fuel prs).res⟩ := by
    simp [GitHub.updatePullRequests, hx]
  rw [hstep]
  refine ⟨hres, ?_⟩
  intro p hp hbase
  simp only [hupd]
  apply List.count_eq_one_of_mem (nodup_filter_numbers _ prs hnd)
  apply List.mem_map_of_mem
  rw [List.mem_filter]
  exact ⟨hp, by simp [hbase]⟩

theorem retarget_loop_exactly_once_witness :
    cfgX.execute = true ∧ 0 < 1 ∧
    cfgX.newBranchName ≠ cfgX.oldBranchName ∧
    (prsW.map PR.number).Nodup ∧
    (prsW.filter (fun p => p.base == cfgX.oldBranchName)).length < 3 ∧
    ((GitHub.updatePullRequests 3 cfgX (prClient 1)
        ⟨prsW, "master"⟩).res = .ok () ∧
      ∀ p ∈ prsW, p.base = cfgX.oldBranchName →
        (updatesOf (GitHub.updatePullRequests 3 cfgX (prClient 1)
          ⟨prsW, "master"⟩).tr).count p.number = 1) :=
  ⟨rfl, by decide, by decide, by decide, by decide,
   retarget_loop_exactly_once cfgX 1 3 "master" prsW rfl (by decide)
     (by decide) (by decide) (by decide)⟩

end MasterToMain
